import Mathlib

/-!
# A shallow embedding of the MCPie tool server core (src/main.ts, src/unnamed/part_000)

This file embeds the tool registry, the dispatch path, the two concrete tools of
`src/main.ts` (`formatDateTime` and `textStats`) and the session bookkeeping of
`src/unnamed/part_000` into Lean, and proves the testable properties of the
specification against that embedding.

Modelling conventions:
* JavaScript `Map` (insertion-ordered, `set` keeps the position of an existing key)
  is an association list with an in-place-update `set`.
* A handler is a total function `Args → Except String CallToolResult`; a thrown
  exception or rejected promise is `Except.error msg` where `msg` is the failure
  message (`error instanceof Error ? error.message : String(error)`).
* `Date.now()` is passed in explicitly as the ambient clock value `now` (milliseconds).
* `Date` field getters are modelled in UTC (the server clock's civil calendar).
* Strings are Lean `String`s over Unicode scalar values; the inputs exercised by
  the concrete scenarios are such that JS UTF-16 `.length` agrees with it.
-/

namespace MCPie

/-- One content block of a call result; the server only ever builds text blocks. -/
inductive ContentBlock where
  | text (s : String)
deriving DecidableEq, Repr

/-- The uniform result envelope (`CallToolResult`): content blocks plus error flag. -/
structure CallToolResult where
  content : List ContentBlock
  isError : Bool
deriving DecidableEq, Repr

/-- `createTextResponse` from src/main.ts lines 30-35: wraps a text in the envelope. -/
def createTextResponse (text : String) (isError : Bool := false) : CallToolResult :=
  { content := [ContentBlock.text text], isError := isError }

/-- A loosely-typed argument value (the `unknown` of `Record<string, unknown>`),
restricted to the value kinds the registered tools receive. -/
inductive JSValue where
  | str (s : String)
  | num (n : Int)
deriving DecidableEq, Repr

/-- The loosely-typed argument bag `Record<string, unknown>`. -/
abbrev Args := List (String × JSValue)

/-- Property lookup on the argument bag; `none` models JS `undefined`. -/
def getArg (args : Args) (key : String) : Option JSValue :=
  (args.find? (fun p => p.1 = key)).map (·.2)

/-- One property of a JSON-schema `properties` object (name, type, description). -/
structure SchemaProp where
  name : String
  type : String
  description : String
deriving DecidableEq, Repr

/-- The declared input schema of a tool. -/
structure InputSchema where
  type : String
  properties : List SchemaProp
  required : List String
deriving DecidableEq, Repr

/-- A tool descriptor (`Tool`): static metadata. -/
structure Tool where
  name : String
  description : String
  inputSchema : InputSchema
deriving DecidableEq, Repr

/-- A registry entry (`ToolHandler` interface, src/main.ts lines 18-21):
a descriptor paired with its handler. -/
structure ToolHandler where
  tool : Tool
  handler : Args → Except String CallToolResult

/-! ## The JS `Map` used as registry backing store

`Map.prototype.set` updates an existing key in place (keeping its original
insertion position) and appends a fresh key at the end; iteration
(`values()`) is in insertion order. -/

/-- The backing store `private tools: Map<string, ToolHandler>`. -/
abbrev RegMap := List (String × ToolHandler)

/-- JS `Map.prototype.get`. -/
def mapGet : RegMap → String → Option ToolHandler
  | [], _ => none
  | (k', v) :: rest, k => if k' = k then some v else mapGet rest k

/-- JS `Map.prototype.set`: in-place update of an existing key, else append. -/
def mapSet (m : RegMap) (k : String) (v : ToolHandler) : RegMap :=
  match m with
  | [] => [(k, v)]
  | (k', v') :: rest => if k' = k then (k, v) :: rest else (k', v') :: mapSet rest k v

/-- The keys of the map in iteration order. -/
def mapKeys (m : RegMap) : List String := m.map (·.1)

/-! ## ToolRegistry (src/main.ts lines 43-85) -/

/-- `ToolRegistry.register`: `this.tools.set(toolHandler.tool.name, toolHandler)`. -/
def register (m : RegMap) (th : ToolHandler) : RegMap :=
  mapSet m th.tool.name th

/-- `ToolRegistry.registerAll`: applies `register` to each entry in order. -/
def registerAll (m : RegMap) (ths : List ToolHandler) : RegMap :=
  ths.foldl register m

/-- `ToolRegistry.getTools`: `Array.from(this.tools.values()).map(th => th.tool)`. -/
def getTools (m : RegMap) : List Tool :=
  m.map (fun p => p.2.tool)

/-- `ToolRegistry.getTools` in state-passing form; the method body reads
`this.tools` and performs no write, so the outgoing state is the incoming one. -/
def getToolsS (m : RegMap) : List Tool × RegMap :=
  (getTools m, m)

/-- `ToolRegistry.handleToolCall` (src/main.ts lines 72-84): look up the name,
return a non-throwing unknown-tool error result if absent, otherwise invoke the
handler and convert any thrown/rejected failure into an error result. -/
def handleToolCall (m : RegMap) (name : String) (args : Args) : CallToolResult :=
  match mapGet m name with
  | none => createTextResponse ("未知工具: " ++ name) true
  | some toolHandler =>
    match toolHandler.handler args with
    | Except.ok r => r
    | Except.error e =>
      createTextResponse ("工具执行错误: " ++ e) true

/-- `handleToolCall` in state-passing form; the method body never writes
`this.tools`, so the outgoing registry is the incoming one. -/
def handleToolCallS (m : RegMap) (name : String) (args : Args) :
    CallToolResult × RegMap :=
  (handleToolCall m name args, m)

/-- The text carried by a result whose content is a single text block. -/
def resultText (r : CallToolResult) : String :=
  match r.content with
  | [ContentBlock.text s] => s
  | _ => ""

/-- `t` occurs as a substring of `s`. -/
def containsSubstr (s t : String) : Prop :=
  ∃ p q : String, s = p ++ t ++ q

/-! ## String helpers used by the tool handlers -/

/-- Global, left-to-right, non-rescanning literal replacement on character lists:
the semantics of JS `String.prototype.replace(new RegExp(token, 'g'), value)`
for a pattern with no regex metacharacters. -/
def replaceAllAux (pat rep : List Char) : Nat → List Char → List Char
  | _, [] => []
  | 0, s => s
  | fuel + 1, c :: rest =>
    if pat ≠ [] ∧ pat.isPrefixOf (c :: rest) then
      rep ++ replaceAllAux pat rep fuel ((c :: rest).drop pat.length)
    else
      c :: replaceAllAux pat rep fuel rest

/-- Global literal replacement on strings.  Each recursive step of
`replaceAllAux` consumes at least one input character, so fuel equal to the
input length makes the fuelled recursion total over the whole input. -/
def replaceAll (s pat rep : String) : String :=
  ⟨replaceAllAux pat.data rep.data s.data.length s.data⟩

/-- JS `String.prototype.padStart(2, '0')` on a decimal rendering. -/
def padStart2 (s : String) : String :=
  if s.length < 2 then "0" ++ s else s

/-- The JS `\s` whitespace characters occurring in the modelled inputs
(ASCII whitespace; the full JS class also has Unicode spaces). -/
def isWS (c : Char) : Bool :=
  c = ' ' ∨ c = '\t' ∨ c = '\n' ∨ c = '\r' ∨ c = '\x0b' ∨ c = '\x0c'

/-- JS `String.prototype.trim`. -/
def jsTrim (s : String) : String :=
  ⟨((s.data.dropWhile isWS).reverse.dropWhile isWS).reverse⟩

/-- Number of maximal runs of non-whitespace characters; on a non-empty string
with no leading or trailing whitespace this equals `split(/\s+/).length`. -/
def countRuns : List Char → Bool → Nat
  | [], _ => 0
  | c :: rest, inWord =>
    if isWS c then countRuns rest false
    else (if inWord then 0 else 1) + countRuns rest true

/-- `text.trim() ? text.trim().split(/\s+/).length : 0` from the textStats handler. -/
def jsWordCount (s : String) : Nat :=
  let t := jsTrim s
  if t = "" then 0 else countRuns t.data false

/-- `text.split(/\r\n|\r|\n/)` on character lists: the alternation matches
`\r\n` first, then a lone `\r` or `\n`. -/
def splitLinesAux (acc : List Char) : List Char → List (List Char)
  | [] => [acc.reverse]
  | '\r' :: '\n' :: rest => acc.reverse :: splitLinesAux [] rest
  | '\r' :: rest => acc.reverse :: splitLinesAux [] rest
  | '\n' :: rest => acc.reverse :: splitLinesAux [] rest
  | c :: rest => splitLinesAux (c :: acc) rest

/-- `text.split(/\r\n|\r|\n/).length` from the textStats handler. -/
def jsLineCount (s : String) : Nat :=
  (splitLinesAux [] s.data).length

/-- The character-frequency accumulation `charFrequency[char] = (charFrequency[char] || 0) + 1`:
JS object string keys enumerate in insertion order, so the tally is an
insertion-ordered association list. -/
def bumpFreq : List (Char × Nat) → Char → List (Char × Nat)
  | [], c => [(c, 1)]
  | (c', n) :: rest, c =>
    if c' = c then (c', n + 1) :: rest else (c', n) :: bumpFreq rest c

/-- `Object.entries(charFrequency)` after tallying every character of the text. -/
def charFrequencyEntries (s : String) : List (Char × Nat) :=
  s.data.foldl bumpFreq []

/-- Stable insertion of an element after every earlier element with a count
at least as large; folding it left-to-right is a stable descending sort,
matching JS `Array.prototype.sort((a, b) => b[1] - a[1])` (stable per spec). -/
def insertCountDesc (x : Char × Nat) : List (Char × Nat) → List (Char × Nat)
  | [] => [x]
  | y :: ys => if x.2 > y.2 then x :: y :: ys else y :: insertCountDesc x ys

/-- Stable sort by descending count. -/
def sortCountDesc (l : List (Char × Nat)) : List (Char × Nat) :=
  l.foldl (fun acc x => insertCountDesc x acc) []


/-- The display name the textStats handler gives a character in the top-10 list:
space, newline and tab get Chinese names, everything else prints itself. -/
def charDisplayName (c : Char) : String :=
  if c = ' ' then "空格"
  else if c = '\n' then "换行"
  else if c = '\t' then "制表符"
  else String.singleton c

/-- The `常见字符` summary string: top ten most frequent characters rendered as
`"name": count` and joined with `, `. -/
def topCharsString (s : String) : String :=
  String.intercalate ", "
    (((sortCountDesc (charFrequencyEntries s)).take 10).map
      (fun p => "\"" ++ charDisplayName p.1 ++ "\": " ++ toString p.2))

/-- JSON string escaping as performed by `JSON.stringify` on the characters that
can occur here (backslash, quote, and the ASCII control characters the handler
special-cases; other characters pass through unescaped). -/
def jsonEscapeChar (c : Char) : String :=
  if c = '\\' then "\\\\"
  else if c = '"' then "\\\""
  else if c = '\n' then "\\n"
  else if c = '\r' then "\\r"
  else if c = '\t' then "\\t"
  else String.singleton c

/-- A JSON string literal for `s`. -/
def jsonString (s : String) : String :=
  "\"" ++ String.join (s.data.map jsonEscapeChar) ++ "\""

/-- `JSON.stringify(result, null, 2)` for the fixed four-field statistics object
built by the textStats handler (keys in insertion order, two-space indent). -/
def statsJson (chars words lines : Nat) (top : String) : String :=
  "\x7b\n  \"字符数\": " ++ toString chars ++
  ",\n  \"单词数\": " ++ toString words ++
  ",\n  \"行数\": " ++ toString lines ++
  ",\n  \"常见字符\": " ++ jsonString top ++ "\n\x7d"

/-! ## The JS `Date` model (UTC civil calendar)

`new Date(ms)` is valid iff `|ms| ≤ 8.64e15`; the civil date is obtained from
the day number with the standard Gregorian conversion. -/

/-- Milliseconds per day. -/
def msPerDay : Int := 86400000

/-- Largest valid JS time value. -/
def maxTimeValue : Int := 8640000000000000

/-- Gregorian (year, month, day) of a day number counted from 1970-01-01. -/
def civilFromDays (z0 : Int) : Int × Int × Int :=
  let z := z0 + 719468
  let era := z.fdiv 146097
  let doe := z - era * 146097
  let yoe := (doe - doe / 1460 + doe / 36524 - doe / 146096) / 365
  let y := yoe + era * 400
  let doy := doe - (365 * yoe + yoe / 4 - yoe / 100)
  let mp := (5 * doy + 2) / 153
  let d := doy - (153 * mp + 2) / 5 + 1
  let m := mp + (if mp < 10 then 3 else -9)
  (y + (if m ≤ 2 then 1 else 0), m, d)

/-- Day number of a time value. -/
def dateDays (ms : Int) : Int := ms.fdiv msPerDay

/-- Milliseconds elapsed since the start of the civil day. -/
def dateMsOfDay (ms : Int) : Int := ms.emod msPerDay

/-- `date.getFullYear()` (UTC model). -/
def getFullYear (ms : Int) : Int := (civilFromDays (dateDays ms)).1

/-- `date.getMonth()` (UTC model): zero-based month. -/
def getMonth (ms : Int) : Int := (civilFromDays (dateDays ms)).2.1 - 1

/-- `date.getDate()` (UTC model): day of month. -/
def getDate (ms : Int) : Int := (civilFromDays (dateDays ms)).2.2

/-- `date.getHours()` (UTC model). -/
def getHours (ms : Int) : Int := dateMsOfDay ms / 3600000

/-- `date.getMinutes()`. -/
def getMinutes (ms : Int) : Int := (dateMsOfDay ms / 60000) % 60

/-- `date.getSeconds()`. -/
def getSeconds (ms : Int) : Int := (dateMsOfDay ms / 1000) % 60

/-- The `formatMap` of the formatDateTime handler, in `Object.entries` order. -/
def formatMap (ms : Int) : List (String × String) :=
  [ ("YYYY", toString (getFullYear ms)),
    ("MM", padStart2 (toString (getMonth ms + 1))),
    ("DD", padStart2 (toString (getDate ms))),
    ("HH", padStart2 (toString (getHours ms))),
    ("mm", padStart2 (toString (getMinutes ms))),
    ("ss", padStart2 (toString (getSeconds ms))) ]

/-- The replacement loop `for (const [token, value] of Object.entries(formatMap))`. -/
def applyFormat (format : String) (ms : Int) : String :=
  (formatMap ms).foldl (fun result p => replaceAll result p.1 p.2) format

/-! ## The formatDateTime tool (src/main.ts lines 92-143) -/

/-- The descriptor of the `formatDateTime` tool. -/
def formatDateTimeTool : Tool :=
  { name := "formatDateTime",
    description := "格式化日期时间",
    inputSchema :=
      { type := "object",
        properties :=
          [ { name := "format", type := "string",
              description := "格式字符串，例如 'YYYY-MM-DD HH:mm:ss'。支持的标记: YYYY(年), MM(月), DD(日), HH(时), mm(分), ss(秒)" },
            { name := "timestamp", type := "number",
              description := "可选的时间戳（毫秒）。默认为当前时间" } ],
        required := ["format"] } }

/-- `const timestamp = args.timestamp as number || Date.now()` (src/main.ts line 115):
`0` and the empty string are falsy and fall back to `now`; a non-empty string
passes through to `new Date`, where (for the values modelled here) it yields an
invalid date, carried as `Except.error`. -/
def resolveTimestamp (now : Int) (args : Args) : Except String Int :=
  match getArg args "timestamp" with
  | none => Except.ok now
  | some (JSValue.num n) => Except.ok (if n = 0 then now else n)
  | some (JSValue.str s) => if s = "" then Except.ok now else Except.error s

/-- The body of the handler's try block for a resolved numeric timestamp:
the `isNaN(date.getTime())` guard (a number is a valid time value iff its
magnitude is at most `8.64e15`) followed by the token replacement loop. -/
def checkAndFormat (format : String) (timestamp : Int) : CallToolResult :=
  if timestamp.natAbs > maxTimeValue.natAbs then
    createTextResponse ("无效的时间戳: " ++ toString timestamp) true
  else
    createTextResponse (applyFormat format timestamp)

/-- The handler of `formatDateTime` (src/main.ts lines 113-142), with the
ambient clock `now` (`Date.now()`) passed explicitly. -/
def formatDateTimeHandler (now : Int) (args : Args) : Except String CallToolResult :=
  match getArg args "format" with
  | some (JSValue.str format) =>
    match resolveTimestamp now args with
    | Except.error s =>
      Except.ok (createTextResponse ("无效的时间戳: " ++ s) true)
    | Except.ok timestamp =>
      Except.ok (checkAndFormat format timestamp)
  | _ =>
    -- `format` is `undefined`: `format.replace` throws a TypeError inside the
    -- handler's own try block, which converts it into this error response.
    Except.ok (createTextResponse
      ("日期格式化错误: Cannot read properties of undefined (reading 'replace')") true)

/-- The `formatDateTime` registry entry, at clock value `now`. -/
def formatDateTimeTH (now : Int) : ToolHandler :=
  { tool := formatDateTimeTool, handler := formatDateTimeHandler now }

/-! ## The textStats tool (src/main.ts lines 146-191) -/

/-- The descriptor of the `textStats` tool. -/
def textStatsTool : Tool :=
  { name := "textStats",
    description := "分析文本并返回统计信息",
    inputSchema :=
      { type := "object",
        properties := [ { name := "text", type := "string", description := "要分析的文本" } ],
        required := ["text"] } }

/-- JS `typeof` for the modelled value kinds. -/
def jsTypeof : Option JSValue → String
  | some (JSValue.str _) => "string"
  | some (JSValue.num _) => "number"
  | none => "undefined"

/-- The handler of `textStats`: rejects non-strings, then reports character,
word and line counts and the ten most frequent characters as an indented JSON
document. -/
def textStatsHandler (args : Args) : Except String CallToolResult :=
  match getArg args "text" with
  | some (JSValue.str text) =>
    let charCount := text.length
    let wordCount := jsWordCount text
    let lineCount := jsLineCount text
    Except.ok (createTextResponse (statsJson charCount wordCount lineCount (topCharsString text)))
  | v =>
    Except.ok (createTextResponse ("输入应为字符串，但收到了 " ++ jsTypeof v) true)

/-- The `textStats` registry entry. -/
def textStatsTH : ToolHandler :=
  { tool := textStatsTool, handler := textStatsHandler }

/-- The `TOOLS` array of src/main.ts, at clock value `now`. -/
def TOOLS (now : Int) : List ToolHandler :=
  [formatDateTimeTH now, textStatsTH]

/-- The registry built by `createServer`: `toolRegistry.registerAll(TOOLS)`. -/
def mkRegistry (now : Int) : RegMap :=
  registerAll [] (TOOLS now)

/-! ## Session lifecycle (src/unnamed/part_000, lines 753-780)

The SSE route allocates a connection identifier, creates a transport bound to
the response channel and stores it in `activeTransports`; the close handler
deletes the entry; the message route looks the identifier up and answers
`404 Connection not found` without dispatching when it is absent.

Modelled from the spec: `uuidv4()` comes from the external `uuid` npm package,
whose code is not part of this repository; per spec §6 the transport collaborator
supplies "a unique identifier per new connection", so the identifier supply is
modelled as a monotone counter `nextId`, fresh by construction. -/

/-- An opaque handle to one connection's SSE response channel
(the `res` captured by `new SSEServerTransport(..., res)`). -/
structure Channel where
  raw : Nat
deriving DecidableEq, Repr

/-- The `activeTransports` map: connection identifier to transport channel. -/
abbrev TransportMap := List (Nat × Channel)

/-- JS `Map.prototype.get` on the transport map. -/
def tGet : TransportMap → Nat → Option Channel
  | [], _ => none
  | (k', v) :: rest, k => if k' = k then some v else tGet rest k

/-- JS `Map.prototype.set` on the transport map. -/
def tSet (m : TransportMap) (k : Nat) (v : Channel) : TransportMap :=
  match m with
  | [] => [(k, v)]
  | (k', v') :: rest => if k' = k then (k, v) :: rest else (k', v') :: tSet rest k v

/-- JS `Map.prototype.delete` on the transport map. -/
def tDelete (m : TransportMap) (k : Nat) : TransportMap :=
  m.filter (fun p => p.1 ≠ k)

/-- The session-manager state: the `activeTransports` map plus the state of the
fresh-identifier supply. -/
structure SessionState where
  activeTransports : TransportMap
  nextId : Nat
deriving DecidableEq, Repr

/-- `app.get("/sse", ...)`: allocate a connection identifier, bind the response
channel and record the transport.  Returns the new state and the identifier. -/
def sseOpen (st : SessionState) (ch : Channel) : SessionState × Nat :=
  let connectionId := st.nextId
  ({ activeTransports := tSet st.activeTransports connectionId ch,
     nextId := st.nextId + 1 }, connectionId)

/-- The close handler body `activeTransports.delete(connectionId)`. -/
def sseClose (st : SessionState) (connectionId : Nat) : SessionState :=
  { st with activeTransports := tDelete st.activeTransports connectionId }

/-- The outcome of `app.post("/message/:connectionId", ...)`: either the 404
`Connection not found` response (no transport is touched), or a dispatch of the
posted message to the stored transport channel. -/
inductive PostOutcome where
  | notFound
  | dispatched (ch : Channel)
deriving DecidableEq, Repr

/-- `app.post("/message/:connectionId", ...)`: look the identifier up; if it is
absent answer 404 without dispatching, otherwise hand the message to the stored
transport.  The route never throws: its body wraps the dispatch in try/catch. -/
def messagePost (st : SessionState) (connectionId : Nat) : SessionState × PostOutcome :=
  match tGet st.activeTransports connectionId with
  | none => (st, PostOutcome.notFound)
  | some ch => (st, PostOutcome.dispatched ch)

/-- All identifiers stored so far are below the supply counter. -/
def IdsBounded (st : SessionState) : Prop :=
  ∀ p ∈ st.activeTransports, p.1 < st.nextId

/-! ## Lemmas about the registry map -/

lemma mapGet_mapSet (m : RegMap) (k : String) (v : ToolHandler) (n : String) :
    mapGet (mapSet m k v) n = if k = n then some v else mapGet m n := by
  induction m with
  | nil => simp [mapSet, mapGet]
  | cons p rest ih =>
    obtain ⟨k', v'⟩ := p
    simp only [mapSet]
    by_cases h : k' = k
    · subst h
      simp only [if_pos rfl, mapGet]
      by_cases h1 : k' = n
      · simp [h1]
      · simp [h1]
    · simp only [if_neg h, mapGet]
      by_cases hn : k' = n
      · subst hn
        have hne : ¬ k = k' := fun hh => h hh.symm
        simp [hne]
      · simp [hn, ih]

lemma mapKeys_mapSet (m : RegMap) (k : String) (v : ToolHandler) :
    mapKeys (mapSet m k v) = if k ∈ mapKeys m then mapKeys m else mapKeys m ++ [k] := by
  induction m with
  | nil => simp [mapSet, mapKeys]
  | cons p rest ih =>
    obtain ⟨k', v'⟩ := p
    simp only [mapKeys, List.map_cons, List.mem_cons] at ih ⊢
    by_cases h : k' = k
    · subst h
      simp [mapSet]
    · simp only [mapSet, if_neg h, List.map_cons]
      rw [ih]
      have hne : ¬ k = k' := fun hh => h hh.symm
      by_cases hm : k ∈ List.map (fun x => x.1) rest
      · simp [hm, hne]
      · simp [hm, hne]

lemma mapKeys_length (m : RegMap) : (mapKeys m).length = m.length := by
  simp [mapKeys]

lemma mem_mapSet (m : RegMap) (k : String) (v : ToolHandler) (p : String × ToolHandler) :
    p ∈ mapSet m k v → p = (k, v) ∨ p ∈ m := by
  induction m with
  | nil => intro h; simpa [mapSet] using h
  | cons q rest ih =>
    obtain ⟨k', v'⟩ := q
    intro h
    by_cases hk : k' = k
    · subst hk
      simp only [mapSet, if_pos rfl] at h
      rcases List.mem_cons.mp h with h | h
      · exact Or.inl h
      · exact Or.inr (List.mem_cons_of_mem _ h)
    · simp only [mapSet, if_neg hk] at h
      rcases List.mem_cons.mp h with h | h
      · exact Or.inr (by simp [h])
      · rcases ih h with h' | h'
        · exact Or.inl h'
        · exact Or.inr (List.mem_cons_of_mem _ h')

lemma nodup_mapKeys_mapSet (m : RegMap) (k : String) (v : ToolHandler)
    (h : (mapKeys m).Nodup) : (mapKeys (mapSet m k v)).Nodup := by
  rw [mapKeys_mapSet]
  by_cases hm : k ∈ mapKeys m
  · simp [hm, h]
  · simp [hm, List.nodup_append, h]


/-! ## Registration sequences -/

/-- A registration step: one `register` call or one `registerAll` call. -/
inductive RegOp where
  | one (th : ToolHandler)
  | many (ths : List ToolHandler)

/-- The entries a registration step feeds to `register`, in order. -/
def opEntries : RegOp → List ToolHandler
  | RegOp.one th => [th]
  | RegOp.many ths => ths

/-- Executing one registration step. -/
def applyOp (m : RegMap) : RegOp → RegMap
  | RegOp.one th => register m th
  | RegOp.many ths => registerAll m ths

/-- Executing a sequence of registration steps on the empty registry. -/
def runOps (ops : List RegOp) : RegMap :=
  ops.foldl applyOp []

/-- First-occurrence order of the names of a list of entries, continuing an
already-collected name list: the registration order of names. -/
def firstRegOrder (init : List String) (l : List ToolHandler) : List String :=
  l.foldl (fun acc th => if th.tool.name ∈ acc then acc else acc ++ [th.tool.name]) init

lemma mapGet_register (m : RegMap) (th : ToolHandler) (n : String) :
    mapGet (register m th) n = if th.tool.name = n then some th else mapGet m n :=
  mapGet_mapSet m th.tool.name th n

lemma registerAll_append (m : RegMap) (l1 l2 : List ToolHandler) :
    registerAll m (l1 ++ l2) = registerAll (registerAll m l1) l2 :=
  List.foldl_append register m l1 l2

lemma mapGet_registerAll_not_mem (m : RegMap) (l : List ToolHandler) (n : String)
    (h : ∀ th' ∈ l, th'.tool.name ≠ n) : mapGet (registerAll m l) n = mapGet m n := by
  induction l generalizing m with
  | nil => rfl
  | cons th rest ih =>
    have hth : th.tool.name ≠ n := h th (by simp)
    have hrest : ∀ th' ∈ rest, th'.tool.name ≠ n := fun th' hm => h th' (by simp [hm])
    calc mapGet (registerAll m (th :: rest)) n
        = mapGet (registerAll (register m th) rest) n := rfl
      _ = mapGet (register m th) n := ih (register m th) hrest
      _ = mapGet m n := by rw [mapGet_register, if_neg hth]

lemma mapKeys_registerAll (m : RegMap) (l : List ToolHandler) :
    mapKeys (registerAll m l) = firstRegOrder (mapKeys m) l := by
  induction l generalizing m with
  | nil => rfl
  | cons th rest ih =>
    calc mapKeys (registerAll m (th :: rest))
        = mapKeys (registerAll (register m th) rest) := rfl
      _ = firstRegOrder (mapKeys (register m th)) rest := ih (register m th)
      _ = firstRegOrder (mapKeys m) (th :: rest) := by
          rw [register, mapKeys_mapSet]
          rfl

/-- Well-formedness: every entry is stored under its descriptor's name. -/
def RegWF (m : RegMap) : Prop := ∀ p ∈ m, p.2.tool.name = p.1

lemma RegWF_register (m : RegMap) (th : ToolHandler) (h : RegWF m) :
    RegWF (register m th) := by
  intro p hp
  rcases mem_mapSet m th.tool.name th p hp with h' | h'
  · subst h'; rfl
  · exact h p h'

lemma RegWF_registerAll (m : RegMap) (l : List ToolHandler) (h : RegWF m) :
    RegWF (registerAll m l) := by
  induction l generalizing m with
  | nil => exact h
  | cons th rest ih => exact ih (register m th) (RegWF_register m th h)

lemma nodup_mapKeys_registerAll (m : RegMap) (l : List ToolHandler)
    (h : (mapKeys m).Nodup) : (mapKeys (registerAll m l)).Nodup := by
  induction l generalizing m with
  | nil => exact h
  | cons th rest ih => exact ih (register m th) (nodup_mapKeys_mapSet m th.tool.name th h)

lemma runOps_eq_registerAll (ops : List RegOp) :
    runOps ops = registerAll [] (ops.flatMap opEntries) := by
  have aux : ∀ (ops : List RegOp) (m : RegMap),
      ops.foldl applyOp m = registerAll m (ops.flatMap opEntries) := by
    intro ops
    induction ops with
    | nil => intro m; rfl
    | cons op rest ih =>
      intro m
      have h1 : applyOp m op = registerAll m (opEntries op) := by
        cases op <;> rfl
      calc (op :: rest).foldl applyOp m
          = rest.foldl applyOp (applyOp m op) := rfl
        _ = registerAll (applyOp m op) (rest.flatMap opEntries) := ih _
        _ = registerAll (registerAll m (opEntries op)) (rest.flatMap opEntries) := by rw [h1]
        _ = registerAll m ((op :: rest).flatMap opEntries) := by
            rw [List.flatMap_cons, registerAll_append]
  exact aux ops []

lemma RegWF_runOps (ops : List RegOp) : RegWF (runOps ops) := by
  rw [runOps_eq_registerAll]
  exact RegWF_registerAll [] _ (by intro p hp; simp at hp)

lemma nodup_mapKeys_runOps (ops : List RegOp) : (mapKeys (runOps ops)).Nodup := by
  rw [runOps_eq_registerAll]
  exact nodup_mapKeys_registerAll [] _ (by simp [mapKeys])

lemma getTools_map_name (m : RegMap) (h : RegWF m) :
    (getTools m).map Tool.name = mapKeys m := by
  induction m with
  | nil => rfl
  | cons p rest ih =>
    have hp : p.2.tool.name = p.1 := h p (by simp)
    have hrest : RegWF rest := fun q hq => h q (by simp [hq])
    simp [getTools, mapKeys] at ih ⊢
    exact ⟨hp, ih hrest⟩

lemma mem_mapKeys_of_mapGet (m : RegMap) (n : String) (th : ToolHandler)
    (h : mapGet m n = some th) : n ∈ mapKeys m := by
  induction m with
  | nil => simp [mapGet] at h
  | cons p rest ih =>
    obtain ⟨k', v'⟩ := p
    by_cases hk : k' = n
    · simp [mapKeys, hk]
    · simp only [mapGet, if_neg hk] at h
      simp [mapKeys] at ih ⊢
      exact Or.inr (ih h)

/-! session lemmas -/

lemma tGet_tSet_self (m : TransportMap) (k : Nat) (v : Channel) :
    tGet (tSet m k v) k = some v := by
  induction m with
  | nil => simp [tSet, tGet]
  | cons p rest ih =>
    obtain ⟨k', v'⟩ := p
    by_cases h : k' = k
    · subst h; simp [tSet, tGet]
    · simp [tSet, tGet, h, ih]

lemma tGet_tDelete_self (m : TransportMap) (k : Nat) :
    tGet (tDelete m k) k = none := by
  induction m with
  | nil => rfl
  | cons p rest ih =>
    obtain ⟨k', v'⟩ := p
    by_cases h : k' = k
    · subst h
      have hstep : tDelete ((k', v') :: rest) k' = tDelete rest k' := by
        simp [tDelete, List.filter_cons]
      rw [hstep]
      exact ih
    · have hstep : tDelete ((k', v') :: rest) k = (k', v') :: tDelete rest k := by
        simp [tDelete, List.filter_cons, h]
      rw [hstep]
      simp [tGet, h, ih]

lemma mem_tSet (m : TransportMap) (k : Nat) (v : Channel) (p : Nat × Channel) :
    p ∈ tSet m k v → p = (k, v) ∨ p ∈ m := by
  induction m with
  | nil => intro h; simpa [tSet] using h
  | cons q rest ih =>
    obtain ⟨k', v'⟩ := q
    intro h
    by_cases hk : k' = k
    · subst hk
      simp only [tSet, if_pos rfl] at h
      rcases List.mem_cons.mp h with h | h
      · exact Or.inl h
      · exact Or.inr (List.mem_cons_of_mem _ h)
    · simp only [tSet, if_neg hk] at h
      rcases List.mem_cons.mp h with h | h
      · exact Or.inr (by simp [h])
      · rcases ih h with h' | h'
        · exact Or.inl h'
        · exact Or.inr (List.mem_cons_of_mem _ h')

/-! line count -/

lemma splitLinesAux_length_pos (acc s : List Char) :
    0 < (splitLinesAux acc s).length := by
  induction acc, s using splitLinesAux.induct <;> simp [splitLinesAux, *]

/-! ## The claims -/

/-- C1: for every registered tool whose handler throws a synchronous exception
or returns a rejecting promise, the call returns an error Result whose text
contains the failure's message, no exception propagates (the dispatch is a
total function into results), the registry contents are unchanged, and a
subsequent call for a different registered tool still returns its normal
result. -/
theorem handleToolCall_isolates_failures (m : RegMap) (name name' : String)
    (args args' : Args) (th th' : ToolHandler) (e : String) (r : CallToolResult)
    (h1 : mapGet m name = some th) (h2 : th.handler args = Except.error e)
    (h3 : mapGet m name' = some th') (h4 : th'.handler args' = Except.ok r) :
    handleToolCall m name args = createTextResponse ("工具执行错误: " ++ e) true ∧
    (handleToolCall m name args).isError = true ∧
    containsSubstr (resultText (handleToolCall m name args)) e ∧
    (handleToolCallS m name args).2 = m ∧
    handleToolCall m name' args' = r := by
  have hA : handleToolCall m name args = createTextResponse ("工具执行错误: " ++ e) true := by
    simp only [handleToolCall, h1, h2]
  have hB : handleToolCall m name' args' = r := by
    simp only [handleToolCall, h3, h4]
  refine ⟨hA, by rw [hA]; rfl, ?_, rfl, hB⟩
  rw [hA]
  exact ⟨"工具执行错误: ", "", by simp [resultText, createTextResponse]⟩

/-- A tool whose handler always fails, for exercising the failure path. -/
def boomTH : ToolHandler :=
  { tool := { name := "boom", description := "always fails",
              inputSchema := { type := "object", properties := [], required := [] } },
    handler := fun _ => Except.error "boom failure" }

/-- A registry holding a failing tool next to the text-statistics tool. -/
def demoRegistry : RegMap := registerAll [] [boomTH, textStatsTH]

theorem handleToolCall_isolates_failures_witness :
    handleToolCall demoRegistry "boom" [] =
      createTextResponse ("工具执行错误: " ++ "boom failure") true ∧
    (handleToolCall demoRegistry "boom" []).isError = true ∧
    containsSubstr (resultText (handleToolCall demoRegistry "boom" [])) "boom failure" ∧
    (handleToolCallS demoRegistry "boom" []).2 = demoRegistry ∧
    handleToolCall demoRegistry "textStats" [("text", JSValue.str "a a b")] =
      createTextResponse (statsJson 5 3 1 "\"a\": 2, \"空格\": 2, \"b\": 1") false :=
  handleToolCall_isolates_failures demoRegistry "boom" "textStats" []
    [("text", JSValue.str "a a b")] boomTH textStatsTH "boom failure"
    (createTextResponse (statsJson 5 3 1 "\"a\": 2, \"空格\": 2, \"b\": 1") false)
    rfl rfl rfl rfl

/-- C2: for every name with no registry entry and every argument bag, the call
returns an error Result whose message identifies the unknown name; the dispatch
is a total function into results, so no exception is thrown. -/
theorem handleToolCall_unknown_tool (m : RegMap) (name : String) (args : Args)
    (h : mapGet m name = none) :
    handleToolCall m name args = createTextResponse ("未知工具: " ++ name) true ∧
    (handleToolCall m name args).isError = true ∧
    containsSubstr (resultText (handleToolCall m name args)) name := by
  have h1 : handleToolCall m name args = createTextResponse ("未知工具: " ++ name) true := by
    simp only [handleToolCall, h]
  refine ⟨h1, by rw [h1]; rfl, ?_⟩
  rw [h1]
  exact ⟨"未知工具: ", "", by simp [resultText, createTextResponse]⟩

theorem handleToolCall_unknown_tool_witness :
    handleToolCall [] "__nonexistent__" [] =
      createTextResponse ("未知工具: " ++ "__nonexistent__") true ∧
    (handleToolCall [] "__nonexistent__" []).isError = true ∧
    containsSubstr (resultText (handleToolCall [] "__nonexistent__" [])) "__nonexistent__" :=
  handleToolCall_unknown_tool [] "__nonexistent__" [] rfl

/-- C3: tool names in the registry are unique under any sequence of
registrations: one register call replaces an existing entry of the same name
(last write wins, never an error); registerAll applies register to each entry
in order, so the last entry carrying a name wins; after any registration
sequence the listing carries each registered name exactly once; and
re-registering an existing name leaves the entry count unchanged. -/
theorem register_lastWriteWins_unique :
    (∀ (m : RegMap) (th : ToolHandler), mapGet (register m th) th.tool.name = some th) ∧
    (∀ (m : RegMap) (l1 l2 : List ToolHandler),
      registerAll m (l1 ++ l2) = registerAll (registerAll m l1) l2) ∧
    (∀ (m : RegMap) (l1 l2 : List ToolHandler) (th : ToolHandler),
      (∀ th' ∈ l2, th'.tool.name ≠ th.tool.name) →
      mapGet (registerAll m (l1 ++ th :: l2)) th.tool.name = some th) ∧
    (∀ (ops : List RegOp) (n : String) (th : ToolHandler),
      mapGet (runOps ops) n = some th →
      ((getTools (runOps ops)).map Tool.name).count n = 1) ∧
    (∀ (m : RegMap) (th : ToolHandler),
      th.tool.name ∈ mapKeys m → (register m th).length = m.length) := by
  refine ⟨?_, ?_, ?_, ?_, ?_⟩
  · intro m th
    rw [mapGet_register, if_pos rfl]
  · exact registerAll_append
  · intro m l1 l2 th h
    rw [registerAll_append]
    have hstep : registerAll (registerAll m l1) (th :: l2) =
        registerAll (register (registerAll m l1) th) l2 := rfl
    rw [hstep, mapGet_registerAll_not_mem _ _ _ h, mapGet_register, if_pos rfl]
  · intro ops n th h
    rw [getTools_map_name _ (RegWF_runOps ops)]
    exact List.count_eq_one_of_mem (nodup_mapKeys_runOps ops) (mem_mapKeys_of_mapGet _ _ _ h)
  · intro m th h
    have h1 := mapKeys_mapSet m th.tool.name th
    rw [if_pos h] at h1
    have h2 : (mapKeys (register m th)).length = (mapKeys m).length := by
      rw [register, h1]
    rw [mapKeys_length, mapKeys_length] at h2
    exact h2

theorem register_lastWriteWins_unique_witness :
    mapGet (register [] textStatsTH) textStatsTH.tool.name = some textStatsTH ∧
    mapGet (registerAll [] ([] ++ textStatsTH :: [])) textStatsTH.tool.name = some textStatsTH ∧
    ((getTools (runOps [RegOp.one textStatsTH, RegOp.one textStatsTH])).map
      Tool.name).count "textStats" = 1 ∧
    (register [("textStats", textStatsTH)] textStatsTH).length =
      [("textStats", textStatsTH)].length :=
  ⟨register_lastWriteWins_unique.1 [] textStatsTH,
   register_lastWriteWins_unique.2.2.1 [] [] [] textStatsTH (by intro th' hmem; simp at hmem),
   register_lastWriteWins_unique.2.2.2.1 [RegOp.one textStatsTH, RegOp.one textStatsTH]
     "textStats" textStatsTH rfl,
   register_lastWriteWins_unique.2.2.2.2 [("textStats", textStatsTH)] textStatsTH
     (List.mem_cons_self _ _)⟩

/-- C4: listing is side-effect-free and idempotent — two listings with no
registration in between return equal descriptor sequences and leave the
registry untouched — and the listed order is the first-registration order of
the names (stable iteration), for every registration sequence, including
sequences that re-register an existing name. -/
theorem getTools_pure_registration_order :
    (∀ m : RegMap,
      (getToolsS m).2 = m ∧ (getToolsS ((getToolsS m).2)).1 = (getToolsS m).1) ∧
    (∀ ops : List RegOp,
      (getTools (runOps ops)).map Tool.name = firstRegOrder [] (ops.flatMap opEntries)) := by
  constructor
  · intro m
    exact ⟨rfl, rfl⟩
  · intro ops
    rw [getTools_map_name _ (RegWF_runOps ops), runOps_eq_registerAll, mapKeys_registerAll]
    rfl

/-- Every branch of the formatDateTime handler produces the single-text-block
envelope via createTextResponse. -/
lemma checkAndFormat_shape (f : String) (ts : Int) :
    ∃ t b, checkAndFormat f ts = createTextResponse t b := by
  rw [checkAndFormat]
  split
  · exact ⟨_, _, rfl⟩
  · exact ⟨_, _, rfl⟩

lemma formatDateTimeHandler_shape (now : Int) (args : Args) :
    ∃ t b, formatDateTimeHandler now args = Except.ok (createTextResponse t b) := by
  cases hf : getArg args "format" with
  | none => exact ⟨_, _, by simp only [formatDateTimeHandler, hf]; rfl⟩
  | some v =>
    cases v with
    | num n => exact ⟨_, _, by simp only [formatDateTimeHandler, hf]; rfl⟩
    | str f =>
      cases hr : resolveTimestamp now args with
      | error s => exact ⟨_, _, by simp only [formatDateTimeHandler, hf, hr]; rfl⟩
      | ok ts =>
        obtain ⟨t, b, hcf⟩ := checkAndFormat_shape f ts
        exact ⟨t, b, by simp only [formatDateTimeHandler, hf, hr, hcf]⟩

lemma textStatsHandler_shape (args : Args) :
    ∃ t b, textStatsHandler args = Except.ok (createTextResponse t b) := by
  cases ht : getArg args "text" with
  | none => exact ⟨_, _, by simp only [textStatsHandler, ht]; rfl⟩
  | some v =>
    cases v with
    | str s => exact ⟨_, _, by simp only [textStatsHandler, ht]; rfl⟩
    | num n => exact ⟨_, _, by simp only [textStatsHandler, ht]; rfl⟩

/-- C5: every outcome of the dispatch on the server's registry — handler
success, handler failure, unknown tool, and handler-detected malformed
argument — yields a result of the same shape: a content sequence holding
exactly one text block plus the is-error boolean. -/
theorem handleToolCall_envelope_shape (now : Int) (name : String) (args : Args) :
    ∃ t b, handleToolCall (mkRegistry now) name args =
      { content := [ContentBlock.text t], isError := b } := by
  by_cases hfd : name = "formatDateTime"
  · subst hfd
    have hm : mapGet (mkRegistry now) "formatDateTime" = some (formatDateTimeTH now) := rfl
    obtain ⟨t, b, hh⟩ := formatDateTimeHandler_shape now args
    refine ⟨t, b, ?_⟩
    simp only [handleToolCall, hm, formatDateTimeTH, hh]
    rfl
  · by_cases hts : name = "textStats"
    · subst hts
      have hm : mapGet (mkRegistry now) "textStats" = some textStatsTH := rfl
      obtain ⟨t, b, hh⟩ := textStatsHandler_shape args
      refine ⟨t, b, ?_⟩
      simp only [handleToolCall, hm, textStatsTH, hh]
      rfl
    · have hreg : mkRegistry now =
          [("formatDateTime", formatDateTimeTH now), ("textStats", textStatsTH)] := rfl
      have hm : mapGet (mkRegistry now) name = none := by
        rw [hreg]
        simp only [mapGet]
        rw [if_neg (fun hh => hfd hh.symm), if_neg (fun hh => hts hh.symm)]
      refine ⟨"未知工具: " ++ name, true, ?_⟩
      simp only [handleToolCall, hm]
      rfl

/-- C6: a new streaming connection receives a fresh session identifier,
collision-free across all currently open sessions, mapped to the connection's
response channel; on close the session entry is removed from the
active-session mapping; afterwards no dispatch targets the removed session —
a message for it is answered without touching any transport and without an
exception (the route is a total function), so late results are discarded
rather than erroring. -/
theorem session_lifecycle (st : SessionState) (ch : Channel) (h : IdsBounded st) :
    (∀ p ∈ st.activeTransports, p.1 ≠ (sseOpen st ch).2) ∧
    tGet (sseOpen st ch).1.activeTransports (sseOpen st ch).2 = some ch ∧
    IdsBounded (sseOpen st ch).1 ∧
    tGet (sseClose (sseOpen st ch).1 (sseOpen st ch).2).activeTransports
      (sseOpen st ch).2 = none ∧
    messagePost (sseClose (sseOpen st ch).1 (sseOpen st ch).2) (sseOpen st ch).2 =
      (sseClose (sseOpen st ch).1 (sseOpen st ch).2, PostOutcome.notFound) := by
  simp only [sseOpen]
  refine ⟨?_, ?_, ?_, ?_, ?_⟩
  · exact fun p hp => Nat.ne_of_lt (h p hp)
  · exact tGet_tSet_self _ _ _
  · intro p hp
    rcases mem_tSet _ _ _ p hp with h' | h'
    · rw [h']
      exact Nat.lt_succ_self _
    · exact Nat.lt_succ_of_lt (h p h')
  · exact tGet_tDelete_self _ _
  · have hnone : tGet (tDelete (tSet st.activeTransports st.nextId ch) st.nextId)
        st.nextId = none := tGet_tDelete_self _ _
    simp only [messagePost, sseClose, hnone]

theorem session_lifecycle_witness :
    tGet (sseOpen ⟨[], 0⟩ ⟨0⟩).1.activeTransports (sseOpen ⟨[], 0⟩ ⟨0⟩).2 = some ⟨0⟩ ∧
    tGet (sseClose (sseOpen ⟨[], 0⟩ ⟨0⟩).1 (sseOpen ⟨[], 0⟩ ⟨0⟩).2).activeTransports
      (sseOpen ⟨[], 0⟩ ⟨0⟩).2 = none ∧
    messagePost (sseClose (sseOpen ⟨[], 0⟩ ⟨0⟩).1 (sseOpen ⟨[], 0⟩ ⟨0⟩).2)
      (sseOpen ⟨[], 0⟩ ⟨0⟩).2 =
      (sseClose (sseOpen ⟨[], 0⟩ ⟨0⟩).1 (sseOpen ⟨[], 0⟩ ⟨0⟩).2, PostOutcome.notFound) :=
  have h := session_lifecycle ⟨[], 0⟩ ⟨0⟩ (by intro p hp; simp at hp)
  ⟨h.2.1, h.2.2.2.1, h.2.2.2.2⟩

/-- C7: calling the formatDateTime tool with format YYYY-MM-DD and the fixed
timestamp 1704412800000 (2024-01-05T00:00:00Z) returns a non-error result
whose single text block is the string 2024-01-05, whatever the ambient clock
reads. -/
theorem formatDateTime_scenario (now : Int) :
    handleToolCall (mkRegistry now) "formatDateTime"
      [("format", JSValue.str "YYYY-MM-DD"), ("timestamp", JSValue.num 1704412800000)] =
      createTextResponse "2024-01-05" false := by
  have hm : mapGet (mkRegistry now) "formatDateTime" = some (formatDateTimeTH now) := rfl
  have hr : resolveTimestamp now
      [("format", JSValue.str "YYYY-MM-DD"), ("timestamp", JSValue.num 1704412800000)] =
      Except.ok 1704412800000 := rfl
  simp only [handleToolCall, hm, formatDateTimeTH, formatDateTimeHandler, hr]
  exact congrArg (fun t => createTextResponse t false) (by rfl)

/-- C8: calling the textStats tool with the text a-space-a-space-b returns a
non-error result whose reported character count is 5, word count is 3 and
line count is 1, whatever the ambient clock reads. -/
theorem textStats_scenario (now : Int) :
    handleToolCall (mkRegistry now) "textStats" [("text", JSValue.str "a a b")] =
      createTextResponse (statsJson 5 3 1 "\"a\": 2, \"空格\": 2, \"b\": 1") false ∧
    ("a a b" : String).length = 5 ∧ jsWordCount "a a b" = 3 ∧ jsLineCount "a a b" = 1 := by
  refine ⟨?_, rfl, rfl, rfl⟩
  have hm : mapGet (mkRegistry now) "textStats" = some textStatsTH := rfl
  simp only [handleToolCall, hm, textStatsTH]
  rfl

/-- C9: the falsy-or fallback in the formatDateTime handler treats the
explicit timestamp 0 (the Unix epoch) the same as an absent timestamp, so the
handler formats the current time instead of the epoch: with the clock at
2024-01-05 the call with timestamp 0 yields 2024-01-05, not the epoch
rendering 1970-01-01. -/
theorem formatDateTime_timestamp_zero_fallback (now : Int) (f : String) :
    formatDateTimeHandler now [("format", JSValue.str f), ("timestamp", JSValue.num 0)] =
      formatDateTimeHandler now [("format", JSValue.str f)] ∧
    handleToolCall (mkRegistry 1704412800000) "formatDateTime"
      [("format", JSValue.str "YYYY-MM-DD"), ("timestamp", JSValue.num 0)] =
      createTextResponse "2024-01-05" false ∧
    applyFormat "YYYY-MM-DD" 0 = "1970-01-01" := by
  refine ⟨rfl, ?_, by rfl⟩
  have hm : mapGet (mkRegistry 1704412800000) "formatDateTime" =
      some (formatDateTimeTH 1704412800000) := rfl
  simp only [handleToolCall, hm, formatDateTimeTH]
  rfl

/-- C10: the textStats line count is at least 1 for every string (splitting on
line separators never yields an empty sequence); the empty string yields
character count 0, word count 0, line count 1 and is not treated as an error,
whatever the ambient clock reads. -/
theorem textStats_lineCount_pos_empty (s : String) (now : Int) :
    1 ≤ jsLineCount s ∧
    handleToolCall (mkRegistry now) "textStats" [("text", JSValue.str "")] =
      createTextResponse (statsJson 0 0 1 "") false := by
  constructor
  · exact splitLinesAux_length_pos [] s.data
  · have hm : mapGet (mkRegistry now) "textStats" = some textStatsTH := rfl
    simp only [handleToolCall, hm, textStatsTH]
    rfl

end MCPie
